import Mathlib

set_option maxRecDepth 100000

/-!
Verification development for nanoMODBUS (a compact MODBUS RTU/TCP library).

The public header `src/nanomodbus.h` is embedded directly: the error enum,
the bitfield type and its accessor/mutator macros.  The companion
implementation file is not part of the sources at hand, so the framing
engine, the client request functions and the server poll loop are modelled
from the specification (spec.md §4.1-§4.4); each such definition carries a
doc comment starting with `Modelled from the spec:`.

Bytes are modelled as `Nat` values below 256, 16-bit scalars as `Nat`
values below 65536, buffers as `List Nat`.
-/

/-! ## Errors (nanomodbus.h, lines 43-62) -/

/-- nanoMODBUS errors, from the `nmbs_error` enum.  Values `<= 0` are library
errors, `> 0` are MODBUS exceptions. -/
inductive nmbs_error where
  | NMBS_ERROR_TRANSPORT
  | NMBS_ERROR_TIMEOUT
  | NMBS_ERROR_INVALID_RESPONSE
  | NMBS_ERROR_INVALID_ARGUMENT
  | NMBS_ERROR_NONE
  | NMBS_EXCEPTION_ILLEGAL_FUNCTION
  | NMBS_EXCEPTION_ILLEGAL_DATA_ADDRESS
  | NMBS_EXCEPTION_ILLEGAL_DATA_VALUE
  | NMBS_EXCEPTION_SERVER_DEVICE_FAILURE
deriving DecidableEq, Repr

/-- Numeric value of each `nmbs_error` enumerator, as assigned in the C enum. -/
def nmbs_error.toInt : nmbs_error → Int
  | .NMBS_ERROR_TRANSPORT => -4
  | .NMBS_ERROR_TIMEOUT => -3
  | .NMBS_ERROR_INVALID_RESPONSE => -2
  | .NMBS_ERROR_INVALID_ARGUMENT => -1
  | .NMBS_ERROR_NONE => 0
  | .NMBS_EXCEPTION_ILLEGAL_FUNCTION => 1
  | .NMBS_EXCEPTION_ILLEGAL_DATA_ADDRESS => 2
  | .NMBS_EXCEPTION_ILLEGAL_DATA_VALUE => 3
  | .NMBS_EXCEPTION_SERVER_DEVICE_FAILURE => 4

/-- Transcription of the header's `nmbs_error_is_exception(e)`,
defined as `((e) > 0 && (e) < 5)` on the numeric enum value. -/
def nmbs_error_is_exception (e : nmbs_error) : Bool :=
  decide (e.toInt > 0) && decide (e.toInt < 5)

/-! ## Bitfield (nanomodbus.h, lines 65-79) -/

/-- Transcription of `nmbs_bitfield_read(bf, b)`:
`(bool) ((bf)[(b) / 8] & (0x1 << ((b) % 8)))`.  The C array subscript is
modelled with `List.getD` (reads in this development are always in bounds). -/
def nmbs_bitfield_read (bf : List Nat) (b : Nat) : Bool :=
  decide (bf.getD (b / 8) 0 &&& (0x1 <<< (b % 8)) ≠ 0)

/-- Transcription of `nmbs_bitfield_write(bf, b, v)`:
`bf[b/8] = v ? bf[b/8] | (0x1 << (b%8)) : bf[b/8] & ~(0x1 << (b%8))`.
The stored bytes are `uint8_t`, so the C complement `~mask`, truncated to
8 bits by the store, is `0xFF ^^^ mask`. -/
def nmbs_bitfield_write (bf : List Nat) (b : Nat) (v : Bool) : List Nat :=
  bf.set (b / 8)
    (if v then bf.getD (b / 8) 0 ||| (0x1 <<< (b % 8))
     else bf.getD (b / 8) 0 &&& (0xFF ^^^ (0x1 <<< (b % 8))))

/-! ## CRC-16/MODBUS (modelled; the implementation file is not under src/) -/

/-- Modelled from the spec: one bit-step of CRC-16/MODBUS (reflected,
polynomial 0xA001): shift right, xor with 0xA001 when the dropped bit was 1. -/
def nmbs_crc_step (crc : Nat) : Nat :=
  if crc % 2 = 1 then (crc / 2) ^^^ 0xA001 else crc / 2

/-- Eight repetitions of `nmbs_crc_step`. -/
def nmbs_crc_bits : Nat → Nat → Nat
  | 0, crc => crc
  | k + 1, crc => nmbs_crc_bits k (nmbs_crc_step crc)

/-- Modelled from the spec: absorb one input byte into the running CRC. -/
def nmbs_crc_byte (crc b : Nat) : Nat :=
  nmbs_crc_bits 8 (crc ^^^ b)

/-- Modelled from the spec: CRC-16/MODBUS over a byte sequence, polynomial
0xA001, initial value 0xFFFF, reflected input/output. -/
def nmbs_crc_calc (data : List Nat) : Nat :=
  data.foldl nmbs_crc_byte 0xFFFF

/-! ## Transport framing (modelled; the implementation file is not under src/) -/

/-- MODBUS transport type, from the `nmbs_transport` enum. -/
inductive nmbs_transport where
  | NMBS_TRANSPORT_RTU
  | NMBS_TRANSPORT_TCP
deriving DecidableEq, Repr

/-- Big-endian byte pair of a 16-bit scalar. -/
def be16 (x : Nat) : List Nat :=
  [x / 256 % 256, x % 256]

/-- Modelled from the spec: RTU send of a PDU (spec §4.2).  Prepend the unit
id, append CRC-16/MODBUS over `[unit_id][pdu]` little-endian. -/
def rtu_emit (unit_id : Nat) (pdu : List Nat) : List Nat :=
  let crc := nmbs_crc_calc (unit_id :: pdu)
  unit_id :: pdu ++ [crc % 256, crc / 256]

/-- Modelled from the spec: RTU receive of a frame (spec §4.2).  `pdu_len` is
the expected PDU length, as derived from the function code (or passed by the
caller of `nmbs_receive_raw_pdu_response`).  Reads the unit id, the PDU, then
the two trailing CRC bytes, validated little-endian against the CRC over the
received `[unit_id][pdu]`.  Returns the unit id and the PDU. -/
def rtu_receive (pdu_len : Nat) (frame : List Nat) : Option (Nat × List Nat) :=
  match frame with
  | [] => none
  | unit_id :: rest =>
    if rest.length = pdu_len + 2 then
      let pdu := rest.take pdu_len
      let crc := nmbs_crc_calc (unit_id :: pdu)
      if rest.drop pdu_len = [crc % 256, crc / 256] then
        some (unit_id, pdu)
      else none
    else none

/-- Modelled from the spec: TCP send of a PDU (spec §4.2).  Emit the MBAP
header — transaction id (big-endian), protocol id 0, length = PDU length + 1,
unit id — then the PDU. -/
def tcp_emit (transaction_id unit_id : Nat) (pdu : List Nat) : List Nat :=
  be16 transaction_id ++ [0x00, 0x00] ++ be16 (pdu.length + 1) ++ unit_id :: pdu

/-- Modelled from the spec: TCP receive (spec §4.2).  Read the 7-byte MBAP
header, validate protocol id = 0 and that `length - 1` PDU bytes follow.
Returns the transaction id, the unit id and the PDU. -/
def tcp_receive (frame : List Nat) : Option (Nat × Nat × List Nat) :=
  match frame with
  | t_hi :: t_lo :: p_hi :: p_lo :: l_hi :: l_lo :: unit_id :: rest =>
    if p_hi = 0 ∧ p_lo = 0 ∧ l_hi * 256 + l_lo = rest.length + 1 then
      some (t_hi * 256 + t_lo, unit_id, rest)
    else none
  | _ => none

/-! ## Bitfield lemmas and claims C7, C8, C10 -/

lemma testBit_255 (k : Nat) (hk : k < 8) : Nat.testBit 0xFF k = true := by
  rw [show (0xFF : Nat) = 2 ^ 8 - 1 by norm_num, Nat.testBit_two_pow_sub_one]
  exact decide_eq_true hk

lemma nmbs_bitfield_read_eq_testBit (bf : List Nat) (b : Nat) :
    nmbs_bitfield_read bf b = Nat.testBit (bf.getD (b / 8) 0) (b % 8) := by
  unfold nmbs_bitfield_read
  rw [Nat.one_shiftLeft, Nat.and_two_pow]
  cases h : Nat.testBit (bf.getD (b / 8) 0) (b % 8) <;> simp [h]

/-- C7: `nmbs_error_is_exception` holds exactly for the four MODBUS exception
members (numeric values 1, 2, 3, 4) and is false for `NMBS_ERROR_NONE` and
every library error, matching the signed taxonomy where values ≤ 0 are local
errors and 1..4 are protocol exceptions. -/
theorem nmbs_error_is_exception_iff (e : nmbs_error) :
    (nmbs_error_is_exception e = true ↔
      (e = .NMBS_EXCEPTION_ILLEGAL_FUNCTION ∨ e = .NMBS_EXCEPTION_ILLEGAL_DATA_ADDRESS ∨
       e = .NMBS_EXCEPTION_ILLEGAL_DATA_VALUE ∨ e = .NMBS_EXCEPTION_SERVER_DEVICE_FAILURE)) ∧
    (nmbs_error_is_exception e = true ↔ 1 ≤ e.toInt ∧ e.toInt ≤ 4) ∧
    (nmbs_error_is_exception e = false ↔ e.toInt ≤ 0) := by
  cases e <;> exact (by decide)

/-- C8: the bitfield is a 250-byte array addressing up to 2000 bit states:
for every `b < 2000` the byte index `b / 8` is within the 250 bytes, and
`nmbs_bitfield_read bf b` returns exactly the bit stored at byte `b / 8`
under mask `1 <<< (b % 8)`, i.e. bit `b % 8` (LSB-first) of that byte. -/
theorem nmbs_bitfield_read_layout (bf : List Nat) (b : Nat)
    (hlen : bf.length = 250) (hb : b < 2000) :
    b / 8 < bf.length ∧
    nmbs_bitfield_read bf b = Nat.testBit (bf.getD (b / 8) 0) (b % 8) := by
  refine ⟨?_, nmbs_bitfield_read_eq_testBit bf b⟩
  rw [hlen]
  exact Nat.div_lt_of_lt_mul (by omega)

theorem nmbs_bitfield_read_layout_witness :
    5 / 8 < (List.replicate 250 0xFF).length ∧
    nmbs_bitfield_read (List.replicate 250 0xFF) 5
      = Nat.testBit ((List.replicate 250 0xFF).getD (5 / 8) 0) (5 % 8) :=
  nmbs_bitfield_read_layout (List.replicate 250 0xFF) 5 (by simp) (by decide)

/-- C10: after `nmbs_bitfield_write bf b v`, reading position `b` yields `v`,
and every other position `bq ≠ b` below 2000 reads the value it had before. -/
theorem nmbs_bitfield_write_read (bf : List Nat) (b bq : Nat) (v : Bool)
    (hlen : bf.length = 250) (hb : b < 2000) (hbq : bq < 2000) :
    nmbs_bitfield_read (nmbs_bitfield_write bf b v) b = v ∧
    (bq ≠ b →
      nmbs_bitfield_read (nmbs_bitfield_write bf b v) bq = nmbs_bitfield_read bf bq) := by
  have hib : b / 8 < bf.length := by rw [hlen]; exact Nat.div_lt_of_lt_mul (by omega)
  have hj8 : b % 8 < 8 := Nat.mod_lt _ (by norm_num)
  have h255 : Nat.testBit 0xFF (b % 8) = true := testBit_255 _ hj8
  constructor
  · rw [nmbs_bitfield_read_eq_testBit]
    unfold nmbs_bitfield_write
    rw [List.getD_eq_getElem?_getD, List.getElem?_set_self hib]
    cases v
    · simp [Nat.one_shiftLeft, Nat.testBit_and, Nat.testBit_xor, h255,
        Nat.testBit_two_pow_self]
    · simp [Nat.one_shiftLeft, Nat.testBit_or, Nat.testBit_two_pow_self]
  · intro hne
    rw [nmbs_bitfield_read_eq_testBit, nmbs_bitfield_read_eq_testBit]
    unfold nmbs_bitfield_write
    by_cases hdiv : bq / 8 = b / 8
    · have hmod : bq % 8 ≠ b % 8 := by omega
      have hq8 : bq % 8 < 8 := Nat.mod_lt _ (by norm_num)
      have h255q : Nat.testBit 0xFF (bq % 8) = true := testBit_255 _ hq8
      have hpow : Nat.testBit (2 ^ (b % 8)) (bq % 8) = false :=
        Nat.testBit_two_pow_of_ne (fun h => hmod h.symm)
      rw [hdiv, List.getD_eq_getElem?_getD, List.getElem?_set_self hib,
        List.getD_eq_getElem?_getD]
      cases v
      · simp [Nat.one_shiftLeft, Nat.testBit_and, Nat.testBit_xor, h255q, hpow]
      · simp [Nat.one_shiftLeft, Nat.testBit_or, hpow]
    · rw [List.getD_eq_getElem?_getD, List.getElem?_set_ne (fun h => hdiv h.symm),
        List.getD_eq_getElem?_getD]

theorem nmbs_bitfield_write_read_witness :
    nmbs_bitfield_read (nmbs_bitfield_write (List.replicate 250 0) 13 true) 13 = true ∧
    ((14 : Nat) ≠ 13 →
      nmbs_bitfield_read (nmbs_bitfield_write (List.replicate 250 0) 13 true) 14
        = nmbs_bitfield_read (List.replicate 250 0) 14) :=
  nmbs_bitfield_write_read (List.replicate 250 0) 13 14 true (by simp) (by decide) (by decide)

/-! ## Frame round trips (claim C1) -/

lemma rtu_receive_emit (unit_id : Nat) (pdu : List Nat) :
    rtu_receive pdu.length (rtu_emit unit_id pdu) = some (unit_id, pdu) := by
  have htake : (pdu ++ [nmbs_crc_calc (unit_id :: pdu) % 256,
      nmbs_crc_calc (unit_id :: pdu) / 256]).take pdu.length = pdu :=
    List.take_left' rfl
  have hdrop : (pdu ++ [nmbs_crc_calc (unit_id :: pdu) % 256,
      nmbs_crc_calc (unit_id :: pdu) / 256]).drop pdu.length
      = [nmbs_crc_calc (unit_id :: pdu) % 256, nmbs_crc_calc (unit_id :: pdu) / 256] :=
    List.drop_left' rfl
  simp [rtu_emit, rtu_receive, htake, hdrop]

lemma tcp_receive_emit (transaction_id unit_id : Nat) (pdu : List Nat)
    (ht : transaction_id < 65536) (hp : pdu.length ≤ 253) :
    tcp_receive (tcp_emit transaction_id unit_id pdu)
      = some (transaction_id, unit_id, pdu) := by
  have hL : pdu.length + 1 < 256 := by omega
  have h1 : (pdu.length + 1) / 256 = 0 := Nat.div_eq_of_lt hL
  have h2 : (pdu.length + 1) % 256 = pdu.length + 1 := Nat.mod_eq_of_lt hL
  have h3 : transaction_id / 256 % 256 = transaction_id / 256 :=
    Nat.mod_eq_of_lt (by omega)
  simp [tcp_emit, tcp_receive, be16, h1, h2, h3]
  omega

/-- C1: for every frame the engine emits — RTU (`rtu_emit`) or TCP
(`tcp_emit`) — feeding those exact bytes to the engine's own receive path
(`rtu_receive`, `tcp_receive`) yields byte-for-byte the same PDU and the same
addressing: the unit id, and on TCP also the transaction id. -/
theorem emit_receive_roundtrip (unit_id transaction_id : Nat) (pdu : List Nat)
    (hu : unit_id < 256) (ht : transaction_id < 65536) (hp : pdu.length ≤ 253) :
    rtu_receive pdu.length (rtu_emit unit_id pdu) = some (unit_id, pdu) ∧
    tcp_receive (tcp_emit transaction_id unit_id pdu)
      = some (transaction_id, unit_id, pdu) :=
  ⟨rtu_receive_emit unit_id pdu, tcp_receive_emit transaction_id unit_id pdu ht hp⟩

theorem emit_receive_roundtrip_witness :
    rtu_receive 5 (rtu_emit 17 [3, 0, 0, 0, 2]) = some (17, [3, 0, 0, 0, 2]) ∧
    tcp_receive (tcp_emit 1 17 [3, 0, 0, 0, 2]) = some (1, 17, [3, 0, 0, 0, 2]) :=
  emit_receive_roundtrip 17 1 [3, 0, 0, 0, 2] (by decide) (by decide) (by decide)

/-! ## Client request model (modelled; the implementation file is not under src/) -/

/-- Client-relevant fields of an `nmbs_t` instance. -/
structure nmbs_client_state where
  transport : nmbs_transport
  dest_address_rtu : Nat
  current_tid : Nat
deriving DecidableEq, Repr

/-- Observable outcome of one client request call: the returned error, the
bytes emitted on the transport, and whether the receive phase ran. -/
structure client_outcome where
  err : nmbs_error
  sent : List Nat
  did_receive : Bool
deriving DecidableEq, Repr

/-- Client requests of the eight supported function codes: FC 1-4 reads,
FC 5/6 single writes, FC 15/16 multiple writes. -/
inductive client_op where
  | read (fc : Nat) (address quantity : Nat)
  | write_single (fc : Nat) (address value : Nat)
  | write_multiple_coils (address quantity : Nat) (coils : List Nat)
  | write_multiple_regs (address quantity : Nat) (regs : List Nat)
deriving DecidableEq, Repr

/-- Modelled from the spec: FC-specific quantity upper bounds (§4.3 table). -/
def fc_qty_max (fc : Nat) : Nat :=
  if fc = 1 ∨ fc = 2 then 2000
  else if fc = 3 ∨ fc = 4 then 125
  else if fc = 15 then 1968
  else if fc = 16 then 123
  else 0

/-- Function code of a request. -/
def client_op.fc : client_op → Nat
  | .read fc _ _ => fc
  | .write_single fc _ _ => fc
  | .write_multiple_coils _ _ _ => 15
  | .write_multiple_regs _ _ _ => 16

/-- Starting address of a request. -/
def client_op.address : client_op → Nat
  | .read _ a _ => a
  | .write_single _ a _ => a
  | .write_multiple_coils a _ _ => a
  | .write_multiple_regs a _ _ => a

/-- Quantity field of a request, when the FC has one. -/
def client_op.quantity : client_op → Option Nat
  | .read _ _ q => some q
  | .write_single _ _ _ => none
  | .write_multiple_coils _ q _ => some q
  | .write_multiple_regs _ q _ => some q

/-- Whether the request is a write (FC 5, 6, 15, 16). -/
def client_op.is_write : client_op → Bool
  | .read _ _ _ => false
  | _ => true

/-- Modelled from the spec: quantity-bounds validation (§4.3). -/
def client_op.quantity_ok (op : client_op) : Bool :=
  match op.quantity with
  | some q => decide (1 ≤ q) && decide (q ≤ fc_qty_max op.fc)
  | none => true

/-- Modelled from the spec: address-range validation, rejecting
`addr + qty > 0x10000` computed without 16-bit wraparound (§4.3). -/
def client_op.range_ok (op : client_op) : Bool :=
  match op.quantity with
  | some q => decide (op.address + q ≤ 0x10000)
  | none => true

/-- Modelled from the spec: request PDU of each client operation (§4.3). -/
def client_op.request_pdu : client_op → List Nat
  | .read fc a q => fc :: (be16 a ++ be16 q)
  | .write_single fc a v => fc :: (be16 a ++ be16 v)
  | .write_multiple_coils a q coils =>
    let byte_count := (q + 7) / 8
    15 :: (be16 a ++ be16 q ++ byte_count % 256 :: coils.take byte_count)
  | .write_multiple_regs a q regs =>
    16 :: (be16 a ++ be16 q ++ (2 * q) % 256 :: ((regs.take q).map be16).flatten)

/-- RTU broadcast: transport RTU and destination address 0. -/
def nmbs_client_state.is_broadcast (st : nmbs_client_state) : Bool :=
  decide (st.transport = .NMBS_TRANSPORT_RTU) && decide (st.dest_address_rtu = 0)

/-- Modelled from the spec: one client request call (§4.2, §4.3).
Validation failures return invalid-argument before any I/O; a read on RTU
broadcast is invalid-argument (no response possible).  Otherwise the request
frame is built per the transport and emitted; on RTU broadcast the receive
phase is skipped and the call reports success, otherwise the receive phase
runs and the call returns its outcome `recv_result` (the result of parsing
and validating the peer response, abstracted here). -/
def client_request (st : nmbs_client_state) (op : client_op)
    (recv_result : nmbs_error) : client_outcome :=
  if !op.quantity_ok || !op.range_ok then
    ⟨.NMBS_ERROR_INVALID_ARGUMENT, [], false⟩
  else if st.is_broadcast && !op.is_write then
    ⟨.NMBS_ERROR_INVALID_ARGUMENT, [], false⟩
  else
    let frame :=
      match st.transport with
      | .NMBS_TRANSPORT_RTU => rtu_emit st.dest_address_rtu op.request_pdu
      | .NMBS_TRANSPORT_TCP =>
        tcp_emit ((st.current_tid + 1) % 65536) st.dest_address_rtu op.request_pdu
    if st.is_broadcast then ⟨.NMBS_ERROR_NONE, frame, false⟩
    else ⟨recv_result, frame, true⟩

/-- C2: a quantity outside the FC-specific bounds (FC 1/2: 1..2000, FC 3/4:
1..125, FC 15: 1..1968, FC 16: 1..123) makes the client request return
`NMBS_ERROR_INVALID_ARGUMENT` with no byte written to the transport and no
receive attempted. -/
theorem client_request_quantity_bounds (st : nmbs_client_state) (op : client_op)
    (recv_result : nmbs_error) (q : Nat) (hq : op.quantity = some q)
    (hout : ((op.fc = 1 ∨ op.fc = 2) ∧ (q < 1 ∨ 2000 < q)) ∨
            ((op.fc = 3 ∨ op.fc = 4) ∧ (q < 1 ∨ 125 < q)) ∨
            (op.fc = 15 ∧ (q < 1 ∨ 1968 < q)) ∨
            (op.fc = 16 ∧ (q < 1 ∨ 123 < q))) :
    client_request st op recv_result = ⟨.NMBS_ERROR_INVALID_ARGUMENT, [], false⟩ := by
  have hbad : op.quantity_ok = false := by
    unfold client_op.quantity_ok
    rw [hq]
    rcases hout with ⟨hfc | hfc, hqq⟩ | ⟨hfc | hfc, hqq⟩ | ⟨hfc, hqq⟩ | ⟨hfc, hqq⟩ <;>
      simp [fc_qty_max, hfc] <;> omega
  simp [client_request, hbad]

theorem client_request_quantity_bounds_witness :
    client_request ⟨.NMBS_TRANSPORT_TCP, 1, 0⟩ (.read 1 0 2001) .NMBS_ERROR_NONE
      = ⟨.NMBS_ERROR_INVALID_ARGUMENT, [], false⟩ :=
  client_request_quantity_bounds _ _ _ 2001 rfl (Or.inl ⟨Or.inl rfl, by omega⟩)

/-- C3: a read or write-multiple request whose `address + quantity` exceeds
0x10000 (computed without 16-bit wraparound) returns
`NMBS_ERROR_INVALID_ARGUMENT` before any I/O: no bytes are sent. -/
theorem client_request_address_overflow (st : nmbs_client_state) (op : client_op)
    (recv_result : nmbs_error) (q : Nat) (hq : op.quantity = some q)
    (hover : 0x10000 < op.address + q) :
    client_request st op recv_result = ⟨.NMBS_ERROR_INVALID_ARGUMENT, [], false⟩ := by
  have hbad : op.range_ok = false := by
    unfold client_op.range_ok
    rw [hq]
    simpa using hover
  simp [client_request, hbad]

theorem client_request_address_overflow_witness :
    client_request ⟨.NMBS_TRANSPORT_TCP, 1, 0⟩ (.read 3 0xFFFF 125) .NMBS_ERROR_NONE
      = ⟨.NMBS_ERROR_INVALID_ARGUMENT, [], false⟩ :=
  client_request_address_overflow _ _ _ 125 rfl (by decide)

/-- C5 counterexample: on an RTU client whose destination address is 0, the
FC 15 write request with quantity 0 returns `NMBS_ERROR_INVALID_ARGUMENT`,
not `NMBS_ERROR_NONE` as the claim asserts of every write request. -/
theorem client_broadcast_counterexample :
    (client_request ⟨.NMBS_TRANSPORT_RTU, 0, 0⟩ (.write_multiple_coils 0 0 [])
        .NMBS_ERROR_TIMEOUT).err = .NMBS_ERROR_INVALID_ARGUMENT ∧
    nmbs_error.NMBS_ERROR_INVALID_ARGUMENT ≠ .NMBS_ERROR_NONE := by decide

/-- C5 amended: on an RTU client whose destination address is 0
(`NMBS_BROADCAST_ADDRESS`), every write request (FC 5, 6, 15, 16) whose
arguments pass validation sends the frame, performs no receive, and returns
`NMBS_ERROR_NONE`; every read request (FC 1, 2, 3, 4) returns
`NMBS_ERROR_INVALID_ARGUMENT` and emits nothing. -/
theorem client_broadcast_behaviour (st : nmbs_client_state) (op : client_op)
    (recv_result : nmbs_error)
    (hT : st.transport = .NMBS_TRANSPORT_RTU) (hd : st.dest_address_rtu = 0) :
    (op.is_write = true → op.quantity_ok = true → op.range_ok = true →
      client_request st op recv_result
        = ⟨.NMBS_ERROR_NONE, rtu_emit 0 op.request_pdu, false⟩) ∧
    (op.is_write = false →
      client_request st op recv_result
        = ⟨.NMBS_ERROR_INVALID_ARGUMENT, [], false⟩) := by
  have hbc : st.is_broadcast = true := by
    simp [nmbs_client_state.is_broadcast, hT, hd]
  constructor
  · intro hw hqok hrok
    simp [client_request, hqok, hrok, hbc, hw, hT, hd]
  · intro hw
    cases hqok : op.quantity_ok
    · simp [client_request, hqok]
    · cases hrok : op.range_ok
      · simp [client_request, hrok]
      · simp [client_request, hqok, hrok, hbc, hw]

theorem client_broadcast_behaviour_witness :
    client_request ⟨.NMBS_TRANSPORT_RTU, 0, 0⟩ (.write_single 6 1 3) .NMBS_ERROR_TIMEOUT
      = ⟨.NMBS_ERROR_NONE, rtu_emit 0 (client_op.request_pdu (.write_single 6 1 3)), false⟩ ∧
    client_request ⟨.NMBS_TRANSPORT_RTU, 0, 0⟩ (.read 3 0 2) .NMBS_ERROR_TIMEOUT
      = ⟨.NMBS_ERROR_INVALID_ARGUMENT, [], false⟩ :=
  ⟨(client_broadcast_behaviour _ _ _ rfl rfl).1 rfl rfl rfl,
   (client_broadcast_behaviour _ _ _ rfl rfl).2 rfl⟩

/-! ## Server poll model (modelled; the implementation file is not under src/) -/

/-- Observable outcome of one server poll call: the returned error, the
`ignored` flag, and the bytes transmitted in response. -/
structure server_outcome where
  err : nmbs_error
  ignored : Bool
  sent : List Nat
deriving DecidableEq, Repr

/-- Modelled from the spec: one `nmbs_server_poll` call on an RTU server
(§4.2, §4.4), at the framing and addressing level.  `pdu_len` is the request
PDU length derived from the incoming function code; `respond` abstracts the
dispatch of the request PDU to the user callback and the construction of the
response PDU (`none` when no response is produced).  A received frame whose
unit id matches neither the server's own address nor broadcast (0) is
consumed without response: `ignored` is set and the poll succeeds.  On
broadcast (unit id 0) the request is dispatched but no response frame is
transmitted. -/
def nmbs_server_poll_rtu (own_address : Nat)
    (respond : List Nat → Option (List Nat)) (pdu_len : Nat)
    (frame : List Nat) : server_outcome :=
  match rtu_receive pdu_len frame with
  | none => ⟨.NMBS_ERROR_INVALID_RESPONSE, false, []⟩
  | some (unit_id, pdu) =>
    if unit_id ≠ own_address ∧ unit_id ≠ 0 then
      ⟨.NMBS_ERROR_NONE, true, []⟩
    else
      match respond pdu with
      | none => ⟨.NMBS_ERROR_NONE, false, []⟩
      | some response_pdu =>
        if unit_id = 0 then ⟨.NMBS_ERROR_NONE, false, []⟩
        else ⟨.NMBS_ERROR_NONE, false, rtu_emit own_address response_pdu⟩

/-- C6: an RTU frame received by the server poll whose unit id matches
neither the server's own address nor 0 (broadcast) is consumed with the
`ignored` flag set, nothing is transmitted, and the poll returns
`NMBS_ERROR_NONE` — no dispatch to any callback, whatever the callbacks
would answer. -/
theorem server_poll_ignores_other_unit (own_address : Nat)
    (respond : List Nat → Option (List Nat)) (pdu_len : Nat) (frame : List Nat)
    (unit_id : Nat) (pdu : List Nat)
    (hrecv : rtu_receive pdu_len frame = some (unit_id, pdu))
    (hown : unit_id ≠ own_address) (hbc : unit_id ≠ 0) :
    nmbs_server_poll_rtu own_address respond pdu_len frame
      = ⟨.NMBS_ERROR_NONE, true, []⟩ := by
  unfold nmbs_server_poll_rtu
  rw [hrecv]
  simp [hown, hbc]

theorem server_poll_ignores_other_unit_witness :
    nmbs_server_poll_rtu 1 (fun pdu => some pdu) 1 (rtu_emit 5 [0x03])
      = ⟨.NMBS_ERROR_NONE, true, []⟩ :=
  server_poll_ignores_other_unit 1 (fun pdu => some pdu) 1 (rtu_emit 5 [0x03]) 5 [0x03]
    (by decide) (by decide) (by decide)

/-! ## Message buffer bound (claim C9) -/

/-- Modelled from the spec: body length of an RTU response held in the
message buffer, derived from the received function code and, for the read
FCs, the count byte read from the wire (§4.2, §4.3): an exception response
carries one byte, FC 1-4 responses a count byte plus `count` payload bytes,
FC 5/6/15/16 responses four echoed bytes.  The same shapes bound the
response frames a server transmits. -/
def rtu_response_body_len (fc count : Nat) : Nat :=
  if 0x80 ≤ fc then 1
  else if fc = 1 ∨ fc = 2 ∨ fc = 3 ∨ fc = 4 then 1 + count
  else 4

/-- Modelled from the spec: body length of an RTU request received by the
server (§4.3): four bytes for the fixed-size requests, and for FC 15/16
five fixed bytes plus a payload whose count byte is validated against the
quantity bounds (at most 246 payload bytes) before the payload is read into
the buffer. -/
def rtu_request_body_len (fc count : Nat) : Nat :=
  if fc = 15 ∨ fc = 16 then 5 + min count 246 else 4

/-- Modelled from the spec: the values the message-buffer write index
`buf_idx` reaches over every sequence of client requests and server polls
(§2, §4): initially 0; after a client send, the length of the emitted
request frame; after an RTU receive (client response or server request:
unit id, function code, body, 2 CRC bytes) a length derived from the wire
with the count byte below 256, likewise for a server response send; after a
TCP send or receive, the 7-byte MBAP header plus a PDU kept within the
253-byte PDU ceiling. -/
inductive nmbs_buf_idx_reachable : Nat → Prop
  | start : nmbs_buf_idx_reachable 0
  | client_send (st : nmbs_client_state) (op : client_op) (recv_result : nmbs_error) :
      nmbs_buf_idx_reachable (client_request st op recv_result).sent.length
  | response_frame_rtu (fc count : Nat) (h : count < 256) :
      nmbs_buf_idx_reachable (4 + rtu_response_body_len fc count)
  | request_frame_rtu (fc count : Nat) (h : count < 256) :
      nmbs_buf_idx_reachable (4 + rtu_request_body_len fc count)
  | frame_tcp (pdu_len : Nat) (h : pdu_len ≤ 253) :
      nmbs_buf_idx_reachable (7 + pdu_len)

lemma be16_length (x : Nat) : (be16 x).length = 2 := rfl

lemma flatten_map_be16_length (l : List Nat) :
    ((l.map be16).flatten).length = 2 * l.length := by
  induction l with
  | nil => rfl
  | cons a l ih =>
    simp only [List.map_cons, List.flatten_cons, List.length_append, List.length_cons,
      ih, be16_length]
    omega

lemma request_pdu_length_le (op : client_op) (h : op.quantity_ok = true) :
    op.request_pdu.length ≤ 253 := by
  cases op with
  | read fc a q => simp [client_op.request_pdu, be16]
  | write_single fc a v => simp [client_op.request_pdu, be16]
  | write_multiple_coils a q coils =>
    simp [client_op.quantity_ok, client_op.quantity, client_op.fc, fc_qty_max] at h
    simp only [client_op.request_pdu, List.length_cons, List.length_append,
      be16_length, List.length_take]
    omega
  | write_multiple_regs a q regs =>
    simp [client_op.quantity_ok, client_op.quantity, client_op.fc, fc_qty_max] at h
    have hflat := flatten_map_be16_length (regs.take q)
    simp only [client_op.request_pdu, List.length_cons, List.length_append,
      be16_length, hflat, List.length_take]
    omega

lemma rtu_emit_length (unit_id : Nat) (pdu : List Nat) :
    (rtu_emit unit_id pdu).length = pdu.length + 3 := by
  simp [rtu_emit]

lemma tcp_emit_length (transaction_id unit_id : Nat) (pdu : List Nat) :
    (tcp_emit transaction_id unit_id pdu).length = pdu.length + 7 := by
  simp only [tcp_emit, List.length_append, List.length_cons, List.length_nil, be16_length]
  omega

lemma client_request_sent_le (st : nmbs_client_state) (op : client_op)
    (recv_result : nmbs_error) :
    (client_request st op recv_result).sent.length ≤ 260 := by
  cases hqok : op.quantity_ok with
  | false => simp [client_request, hqok]
  | true =>
    cases hrok : op.range_ok with
    | false => simp [client_request, hqok, hrok]
    | true =>
      have hpdu := request_pdu_length_le op hqok
      cases htr : st.transport <;> cases hb : st.is_broadcast <;>
        cases hw : op.is_write <;>
        simp [client_request, hqok, hrok, htr, hb, hw,
          rtu_emit_length, tcp_emit_length] <;>
        omega

/-- C9: over every sequence of operations on a protocol instance (client
requests or server polls), the message-buffer write index `buf_idx` never
exceeds 260, the size of the fixed scratch buffer: the bound holds in every
reachable state. -/
theorem nmbs_buf_idx_le_260 (n : Nat) (h : nmbs_buf_idx_reachable n) : n ≤ 260 := by
  cases h with
  | start => omega
  | client_send st op recv_result => exact client_request_sent_le st op recv_result
  | response_frame_rtu fc count hc =>
    unfold rtu_response_body_len
    split_ifs <;> omega
  | request_frame_rtu fc count hc =>
    unfold rtu_request_body_len
    split_ifs <;> omega
  | frame_tcp pdu_len hp => omega

theorem nmbs_buf_idx_le_260_witness : 4 + rtu_response_body_len 3 255 ≤ 260 :=
  nmbs_buf_idx_le_260 _ (nmbs_buf_idx_reachable.response_frame_rtu 3 255 (by decide))

/-! ## CRC value of the reference frame (claim C4) -/

/-- C4 counterexample: CRC-16/MODBUS over `[0x01][0x03][0x00][0x00][0x00][0x0A]`
is not 0xC5CD, and the two CRC bytes of the corresponding RTU frame are not
0xCD followed by 0xC5: the claim transposes the two bytes. -/
theorem nmbs_crc_calc_c5cd_counterexample :
    nmbs_crc_calc [0x01, 0x03, 0x00, 0x00, 0x00, 0x0A] ≠ 0xC5CD ∧
    rtu_emit 0x01 [0x03, 0x00, 0x00, 0x00, 0x0A]
      ≠ [0x01, 0x03, 0x00, 0x00, 0x00, 0x0A, 0xCD, 0xC5] := by decide

/-- C4 amended: CRC-16/MODBUS with polynomial 0xA001 and initial value
0xFFFF, computed over the six bytes `[0x01][0x03][0x00][0x00][0x00][0x0A]`,
equals 0xCDC5, and the two CRC bytes appear on the wire (little-endian) in
the order 0xC5 then 0xCD. -/
theorem nmbs_crc_calc_reference_frame :
    nmbs_crc_calc [0x01, 0x03, 0x00, 0x00, 0x00, 0x0A] = 0xCDC5 ∧
    rtu_emit 0x01 [0x03, 0x00, 0x00, 0x00, 0x0A]
      = [0x01, 0x03, 0x00, 0x00, 0x00, 0x0A, 0xC5, 0xCD] := by decide
